import Mathlib

/-!
Shallow embedding of the cross-reference subsystem of the repository
(scripts/gen_toc.py, scripts/rewrite_links.py, scripts/check_links.py).

Strings are modelled as Lean `String`s, with all operations implemented
structurally on the underlying `List Char` so that every definition is
executable by kernel reduction.  Character-level Python semantics
(`str.lower`, `str.strip`, the regex classes `\s`, `\w`, `\d`) are modelled
at their ASCII behaviour via code points (`Char.toNat`), which matches the
repository's markdown inputs.  Text content is taken after newline decoding,
so lines are separated by a single `'\n'`.
-/

namespace DocRefs

/-- Python `\s` (ASCII): space, tab, newline, carriage return, vertical tab,
form feed. Used by `str.strip`, the heading regex and the slug regexes. -/
def pyIsSpace (c : Char) : Bool :=
  c.toNat == 32 || c.toNat == 9 || c.toNat == 10 || c.toNat == 13 ||
  c.toNat == 11 || c.toNat == 12

/-- Python `str.lower` at its ASCII behaviour: map `A`-`Z` to `a`-`z`. -/
def pyLower (c : Char) : Char :=
  if 65 ≤ c.toNat && c.toNat ≤ 90 then Char.ofNat (c.toNat + 32) else c

/-- Python `str.strip()`: drop whitespace from both ends. -/
def pyStrip (l : List Char) : List Char :=
  ((l.dropWhile pyIsSpace).reverse.dropWhile pyIsSpace).reverse

/-- `str.strip()` on a `String`. -/
def pyStripStr (s : String) : String := String.mk (pyStrip s.data)

/-- Python `s.startswith(pre)`. -/
def strStartsWith (s pre : String) : Bool := pre.data.isPrefixOf s.data

/-- Python `s.endswith(suf)`. -/
def strEndsWith (s suf : String) : Bool := suf.data.isSuffixOf s.data

/-- Python `s.split(sep)` for a one-character separator (keeps empty parts). -/
def splitOnChar (sep : Char) : List Char → List (List Char)
  | [] => [[]]
  | c :: cs =>
    if c == sep then [] :: splitOnChar sep cs
    else
      match splitOnChar sep cs with
      | [] => [[c]]
      | h :: t => (c :: h) :: t

/-- The lines of a file's text, as Python's line iteration yields them
(without the terminating newlines, which only trailing-whitespace handling
ever looks at). -/
def textLines (content : String) : List String :=
  (splitOnChar '\n' content.data).map String.mk

/-! ## gen_toc.py -/

/-- The character class kept by `slugify`'s first substitution: the regex
`[^a-z0-9\s-]` removes everything that is not a lowercase letter, digit,
whitespace, or hyphen (applied after lowercasing). -/
def slugKeep (c : Char) : Bool :=
  (97 ≤ c.toNat && c.toNat ≤ 122) || (48 ≤ c.toNat && c.toNat ≤ 57) ||
  pyIsSpace c || c.toNat == 45

/-- The class `[\s-]` of `slugify`'s second substitution: whitespace or hyphen. -/
def isSpaceHyphen (c : Char) : Bool := pyIsSpace c || c.toNat == 45

/-- The substitution `re.sub(r"[\s-]+", "-", text)`: every maximal run of
whitespace-or-hyphen characters becomes a single hyphen.  The flag records
whether the scan is inside such a run (the run's hyphen already emitted). -/
def collapseAux : Bool → List Char → List Char
  | _, [] => []
  | inRun, c :: cs =>
    if isSpaceHyphen c then
      if inRun then collapseAux true cs else '-' :: collapseAux true cs
    else c :: collapseAux false cs

/-- `slugify` of gen_toc.py on the character list: strip, lowercase, remove
every character outside `[a-z0-9\s-]`, collapse `[\s-]+` runs to `-`. -/
def slugifyL (l : List Char) : List Char :=
  collapseAux false (((pyStrip l).map pyLower).filter slugKeep)

/-- `slugify` of gen_toc.py. -/
def slugify (s : String) : String := String.mk (slugifyL s.data)

/-- One line matched against `HEADING_PATTERN = r"^(#{1,6})\s+(.+?)\s*$"`,
followed by the caller's `title.strip()`: `1..6` leading `#`, then at least
one whitespace character and at least one further character; the recorded
title is the rest of the line trimmed of surrounding whitespace. -/
def parseHeadingLine (line : String) : Option (Nat × String) :=
  let cs := line.data
  let hashes := cs.takeWhile (fun c => c == '#')
  let tail := cs.dropWhile (fun c => c == '#')
  if 1 ≤ hashes.length ∧ hashes.length ≤ 6 then
    match tail with
    | c :: _ :: _ =>
      if pyIsSpace c then some (hashes.length, String.mk (pyStrip tail)) else none
    | _ => none
  else none

/-- `parse_headings` of gen_toc.py: the `(level, title)` pairs of the lines
matching the heading pattern, in document order. -/
def parseHeadings (content : String) : List (Nat × String) :=
  (textLines content).filterMap parseHeadingLine

/-- One TOC entry: `"  " * (level - 1)` of indentation, the title as display
text, `#slug` as the target. -/
def tocLine (level : Nat) (title : String) : String :=
  String.mk (List.replicate (2 * (level - 1)) ' ') ++
    "- [" ++ title ++ "](#" ++ slugify title ++ ")"

/-- The lines `main` of gen_toc.py assembles for the given documents'
contents (the files that exist; missing ones were warned about and skipped
before this point): a fixed title, a blank line, one entry per heading of
level at most 3, and the trailing page-break marker. -/
def genTocLines (docs : List String) : List String :=
  let toc := docs.foldl
    (fun acc content =>
      (parseHeadings content).foldl
        (fun acc2 p => if p.1 > 3 then acc2 else acc2 ++ [tocLine p.1 p.2]) acc)
    ["# Table of Contents", ""]
  toc ++ ["\n<div class=\"page-break\"></div>"]

/-! ## rewrite_links.py -/

/-- Python `\w` (ASCII): letters, digits, underscore. -/
def pyIsWord (c : Char) : Bool :=
  (97 ≤ c.toNat && c.toNat ≤ 122) || (65 ≤ c.toNat && c.toNat ≤ 90) ||
  (48 ≤ c.toNat && c.toNat ≤ 57) || c.toNat == 95

/-- Python `.replace(' ', '-')` pointwise: a space (code point 32) becomes a
hyphen. -/
def spaceToHyphen (c : Char) : Char := if c.toNat == 32 then '-' else c

/-- The heading-to-anchor computation of `replace_link`:
`header.lower().replace(' ', '-')` followed by `re.sub(r'[^\w-]', '', anchor)`. -/
def rwAnchorL (l : List Char) : List Char :=
  ((l.map pyLower).map spaceToHyphen).filter fun c => pyIsWord c || c.toNat == 45

/-- The heading-to-anchor computation of `replace_link`, on a `String`. -/
def rwAnchor (s : String) : String := String.mk (rwAnchorL s.data)

/-- Python `os.path.basename` (POSIX): the part after the last `/`. -/
def pyBasename (p : String) : String :=
  String.mk (p.data.reverse.takeWhile (fun c => c != '/')).reverse

/-- The root part of Python `os.path.splitext` on a basename: split at the
last dot, unless every character before that dot is itself a dot. -/
def splitextRoot (b : String) : String :=
  let l := b.data
  let extRev := l.reverse.takeWhile fun c => c != '.'
  if extRev.length == l.length then b
  else
    let root := l.take (l.length - extRev.length - 1)
    if root.all (fun c => c == '.') then b else String.mk root

/-- `re.sub(r'^\d+[-_]', '', anchor)`: remove a leading run of digits
followed by `-` or `_`, when present. -/
def dropNumSep (s : String) : String :=
  let l := s.data
  let ds := l.takeWhile fun c => 48 ≤ c.toNat && c.toNat ≤ 57
  if ds.isEmpty then s
  else
    match l.drop ds.length with
    | c :: rest => if c == '-' || c == '_' then String.mk rest else s
    | [] => s

/-- The fallback slug of `replace_link`: the target's basename without its
extension, with a leading numeric prefix and separator removed; no further
slugification is applied. -/
def fallbackAnchor (url : String) : String := dropNumSep (splitextRoot (pyBasename url))

/-- Python `os.path.dirname` (POSIX). -/
def pyDirname (p : String) : String :=
  let l := p.data
  let base := l.reverse.takeWhile fun c => c != '/'
  let head := l.take (l.length - base.length)
  if head.isEmpty || head.all (fun c => c == '/') then String.mk head
  else String.mk (head.reverse.dropWhile (fun c => c == '/')).reverse

/-- Python `os.path.join` (POSIX) for two components. -/
def pyJoin (a b : String) : String :=
  if strStartsWith b "/" then b
  else if a == "" || strEndsWith a "/" then a ++ b
  else a ++ "/" ++ b

/-- The classification of `replace_link`'s first test: external, anchor-only
or mailto targets, which are never rewritten. -/
def linkNonRewritable (url : String) : Bool :=
  strStartsWith url "http" || strStartsWith url "#" || strStartsWith url "mailto:"

/-- An unchanged markdown link occurrence, `match.group(0)` of the link
regex: `[text](url)`. -/
def origLink (text url : String) : String := "[" ++ text ++ "](" ++ url ++ ")"

/-- A rewritten link occurrence, `[text](#anchor)`. -/
def anchorLink (text anchor : String) : String := "[" ++ text ++ "](#" ++ anchor ++ ")"

/-- The filesystem as rewrite_links sees it: resolved path to decoded text.
`os.path.exists` is membership; a present file always reads successfully, so
the `except` branch of `replace_link` has no counterpart. -/
def lookupFs (fs : List (String × String)) (p : String) : Option String := List.lookup p fs

/-- The first line of the target file that `startswith('# ')`, with the
marker dropped and the remainder stripped: the first level-1 heading
`replace_link` scans for. -/
def firstH1 (content : String) : Option String :=
  ((textLines content).find? fun l => strStartsWith l "# ").map
    fun l => pyStripStr (String.mk (l.data.drop 2))

/-- `replace_link` of rewrite_links.py on one matched link: external, anchor
and mailto targets are returned unchanged; a target ending in `.md` is
resolved against the current file's directory and rewritten to the anchor of
the target's first level-1 heading, or to the filename-derived fallback
anchor when the target does not exist or has no level-1 heading; every other
target is returned unchanged. -/
def replaceLink (fs : List (String × String)) (filename text url : String) : String :=
  if linkNonRewritable url then origLink text url
  else if strEndsWith url ".md" then
    let targetPath := pyJoin (pyDirname filename) url
    match lookupFs fs targetPath with
    | some tcontent =>
      match firstH1 tcontent with
      | some header => anchorLink text (rwAnchor header)
      | none => anchorLink text (fallbackAnchor url)
    | none => anchorLink text (fallbackAnchor url)
  else origLink text url

/-- One attempt of the regex `\[([^\]]+)\]\(([^)]+)\)` at a position just
after `[`: a nonempty run without `]`, then `](`, then a nonempty run
without `)`, then `)`.  Returns the two groups and the rest of the input. -/
def tryMatchLink (l : List Char) : Option (List Char × List Char × List Char) :=
  let text := l.takeWhile fun c => c != ']'
  if text.isEmpty then none
  else
    match l.drop text.length with
    | ']' :: '(' :: r2 =>
      let url := r2.takeWhile fun c => c != ')'
      if url.isEmpty then none
      else
        match r2.drop url.length with
        | ')' :: r3 => some (text, url, r3)
        | _ => none
    | _ => none

/-- `link_pattern.sub(replace_link, content)`: scan left to right; each
non-overlapping match of the link regex is replaced by `f text url`, all
other characters are copied.  The fuel is an upper bound on the number of
steps; every caller passes the input length, which suffices because each
step consumes at least one character. -/
def subLinksF (f : String → String → String) : Nat → List Char → List Char
  | 0, l => l
  | _ + 1, [] => []
  | fuel + 1, c :: cs =>
    if c == '[' then
      match tryMatchLink cs with
      | some (t, u, rest) => (f (String.mk t) (String.mk u)).data ++ subLinksF f fuel rest
      | none => c :: subLinksF f fuel cs
    else c :: subLinksF f fuel cs

/-- The link occurrences the substitution visits, in order: the matches of
`link_pattern` as `(text, url)` pairs, found with the same scan as
`subLinksF`. -/
def findLinksF : Nat → List Char → List (String × String)
  | 0, _ => []
  | _ + 1, [] => []
  | fuel + 1, c :: cs =>
    if c == '[' then
      match tryMatchLink cs with
      | some (t, u, rest) => (String.mk t, String.mk u) :: findLinksF fuel rest
      | none => findLinksF fuel cs
    else findLinksF fuel cs

/-- The markdown link occurrences of a document, in order of appearance. -/
def findLinks (content : String) : List (String × String) :=
  findLinksF content.data.length content.data

/-- `rewrite_links` of rewrite_links.py: every match of the link regex in
`content` replaced by `replace_link`'s result for it. -/
def rewriteLinks (fs : List (String × String)) (filename content : String) : String :=
  String.mk (subLinksF (replaceLink fs filename) content.data.length content.data)

/-! ## check_links.py -/

/-- The group of the regex `\[.*?\]\((.*?)\)` when its tail `\((.*?)\)` is
tried at a position just after `](`: the shortest newline-free run up to a
`)`.  Returns the group and the rest of the input. -/
def clMatchInner : List Char → Option (List Char × List Char)
  | [] => none
  | c :: cs =>
    if c == ')' then some ([], cs)
    else if c == '\n' then none
    else
      match clMatchInner cs with
      | some (g, r) => some (c :: g, r)
      | none => none

/-- The regex `\[.*?\]\((.*?)\)` after its initial `[`: the non-greedy `.*?`
grows over newline-free text until a `](` from which the tail matches;
when the tail fails there, the `]` is swallowed and the scan goes on. -/
def clAfterBracket : List Char → Option (List Char × List Char)
  | [] => none
  | c :: cs =>
    if c == '\n' then none
    else if c == ']' then
      match cs with
      | '(' :: cs2 =>
        match clMatchInner cs2 with
        | some (g, r) => some (g, r)
        | none => clAfterBracket cs
      | _ => clAfterBracket cs
    else clAfterBracket cs

/-- `link_pattern.findall(content)` of check_links.py: for each
non-overlapping match of `\[.*?\]\((.*?)\)`, the captured target string.
The fuel is an upper bound on the number of steps; callers pass the input
length, which suffices because each step consumes at least one character. -/
def clFindAllF : Nat → List Char → List String
  | 0, _ => []
  | _ + 1, [] => []
  | fuel + 1, c :: cs =>
    if c == '[' then
      match clAfterBracket cs with
      | some (g, r) => String.mk g :: clFindAllF fuel r
      | none => clFindAllF fuel cs
    else clFindAllF fuel cs

/-- The link targets check_links.py extracts from one document. -/
def clFindAll (content : String) : List String :=
  clFindAllF content.data.length content.data

/-- Python `os.path.normpath` (POSIX): number of leading slashes kept (two
are preserved verbatim, one and three-or-more become one). -/
def npInitialSlashes (p : String) : Nat :=
  if strStartsWith p "/" then
    if strStartsWith p "//" && !strStartsWith p "///" then 2 else 1
  else 0

/-- One component step of `os.path.normpath`: drop empty and `.` parts,
let `..` cancel a previous real component, keep it otherwise (at the start
of a relative path, or after another kept `..`). -/
def npStep (initialSlashes : Nat) (acc : List String) (comp : String) : List String :=
  if comp == "" || comp == "." then acc
  else if comp != ".." || (initialSlashes == 0 && acc.isEmpty) ||
      (!acc.isEmpty && acc.getLast? == some "..") then acc ++ [comp]
  else if !acc.isEmpty then acc.dropLast
  else acc

/-- Python `os.path.normpath` (POSIX). -/
def normpath (p : String) : String :=
  if p == "" then "."
  else
    let sl := npInitialSlashes p
    let comps := ((splitOnChar '/' p.data).map String.mk).foldl (npStep sl) []
    let joined := String.mk (List.replicate sl '/') ++
      String.mk (List.intercalate ['/'] (comps.map String.data))
    if joined == "" then "." else joined

/-- A markdown file as the scan of check_links.py visits it: the directory
`os.walk` reported, the bare filename, and the decoded text. -/
structure MdFile where
  dirpath : String
  filename : String
  content : String

/-- The hard-coded ignore list of check_links.py. -/
def ignoredFiles : List String := ["MCP-IEEE-42010-AD.md", "CHANGELOG.md", "CONTRIBUTING.md"]

/-- The first `continue` of the link loop: external links and anchors. -/
def linkSkip (link : String) : Bool :=
  strStartsWith link "http" || strStartsWith link "https" ||
  strStartsWith link "#" || strStartsWith link "mailto:"

/-- `link.split('#')[0]`: the path component of a link target. -/
def linkPathOf (link : String) : String :=
  String.mk (link.data.takeWhile fun c => c != '#')

/-- The resolution rule of check_links.py: a path starting with `/` resolves
against the start path with its leading slashes stripped, any other against
the document's own directory. -/
def resolveTarget (startPath dirpath linkPath : String) : String :=
  if strStartsWith linkPath "/" then
    pyJoin startPath (String.mk (linkPath.data.dropWhile fun c => c == '/'))
  else pyJoin dirpath linkPath

/-- The body of the innermost loop of `check_links` for one extracted link:
skip external/anchor/mailto targets and bare anchors, resolve and normalize
the rest, and append `(filepath, link)` when the target does not exist. -/
def clInner (ex : String → Bool) (startPath dirpath filepath : String)
    (acc : List (String × String)) (link : String) : List (String × String) :=
  if linkSkip link then acc
  else
    let lp := linkPathOf link
    if lp == "" then acc
    else
      let tp := normpath (resolveTarget startPath dirpath lp)
      if ex tp then acc else acc ++ [(filepath, link)]

/-- `check_links` of check_links.py over the files the directory walk
yields, with filesystem existence abstracted as the predicate `ex`: skip
non-markdown and ignored filenames, then collect every broken link as
`(os.path.join(dirpath, filename), original target)`. -/
def checkLinks (ex : String → Bool) (startPath : String) (files : List MdFile) :
    List (String × String) :=
  files.foldl
    (fun acc f =>
      if !strEndsWith f.filename ".md" then acc
      else if ignoredFiles.contains f.filename then acc
      else
        (clFindAll f.content).foldl
          (clInner ex startPath f.dirpath (pyJoin f.dirpath f.filename)) acc)
    []

/-- Whether one link of a document at `dirpath` is reported broken: the
predicate `clInner` appends by. -/
def linkBroken (ex : String → Bool) (startPath dirpath : String) (link : String) : Bool :=
  if linkSkip link then false
  else
    let lp := linkPathOf link
    if lp == "" then false
    else !ex (normpath (resolveTarget startPath dirpath lp))

/-! ## Derived predicates and spec-side definitions -/

/-- The image of one character under slug collapsing: a whitespace-or-hyphen
character becomes a hyphen, anything else stays. -/
def sohToHyphen (c : Char) : Char := if isSpaceHyphen c then '-' else c

/-- No two adjacent characters are both whitespace-or-hyphen. -/
def noAdjSoh : List Char → Bool
  | a :: b :: t => !(isSpaceHyphen a && isSpaceHyphen b) && noAdjSoh (b :: t)
  | _ => true

/-- The head, if any, is not whitespace-or-hyphen. -/
def headNotSoh : List Char → Bool
  | [] => true
  | c :: _ => !isSpaceHyphen c

/-- A character a produced slug may contain: lowercase ASCII letter, digit,
or hyphen. -/
def isSlugChar (c : Char) : Bool :=
  (97 ≤ c.toNat && c.toNat ≤ 122) || (48 ≤ c.toNat && c.toNat ≤ 57) || c.toNat == 45

/-- A character of a plain title: ASCII letter, digit, space, or hyphen. -/
def plainChar (c : Char) : Bool :=
  (97 ≤ c.toNat && c.toNat ≤ 122) || (65 ≤ c.toNat && c.toNat ≤ 90) ||
  (48 ≤ c.toNat && c.toNat ≤ 57) || c.toNat == 32 || c.toNat == 45

/-- Titles on which the two anchor computations of the repository coincide:
only ASCII letters, digits, spaces and hyphens, with no two adjacent
space-or-hyphen characters and neither end a space or hyphen. -/
def plainTitle (l : List Char) : Bool :=
  l.all plainChar && noAdjSoh l && headNotSoh l && headNotSoh l.reverse

/-- The character class of step (3) of the claimed slug algorithm read
literally: keep only lowercase letters, digits, the space character, and
hyphens. -/
def statedKeep (c : Char) : Bool :=
  (97 ≤ c.toNat && c.toNat ≤ 122) || (48 ≤ c.toNat && c.toNat ≤ 57) ||
  c.toNat == 32 || c.toNat == 45

/-- The claimed slug algorithm read literally: trim, lowercase, remove every
character that is not a lowercase letter, digit, space, or hyphen, collapse
every run of whitespace-or-hyphen into a single hyphen. -/
def slugSpecStated (s : String) : String :=
  String.mk (collapseAux false (((pyStrip s.data).map pyLower).filter statedKeep))

/-- The amended character class of step (3): keep only lowercase letters,
digits, whitespace, and hyphens. -/
def amendedKeep (c : Char) : Bool :=
  (97 ≤ c.toNat && c.toNat ≤ 122) || (48 ≤ c.toNat && c.toNat ≤ 57) ||
  pyIsSpace c || c.toNat == 45

/-- The amended slug algorithm: trim, lowercase, remove every character that
is not a lowercase letter, digit, whitespace, or hyphen, collapse every run
of whitespace-or-hyphen into a single hyphen. -/
def slugSpecAmended (s : String) : String :=
  String.mk (collapseAux false (((pyStrip s.data).map pyLower).filter amendedKeep))

/-! ## Character-level lemmas -/

theorem pyIsSpace_iff (c : Char) :
    pyIsSpace c = true ↔
      (c.toNat = 32 ∨ c.toNat = 9 ∨ c.toNat = 10 ∨ c.toNat = 13 ∨
       c.toNat = 11 ∨ c.toNat = 12) := by
  simp [pyIsSpace]
  tauto

theorem isSpaceHyphen_iff (c : Char) :
    isSpaceHyphen c = true ↔
      (c.toNat = 32 ∨ c.toNat = 9 ∨ c.toNat = 10 ∨ c.toNat = 13 ∨
       c.toNat = 11 ∨ c.toNat = 12 ∨ c.toNat = 45) := by
  simp [isSpaceHyphen, pyIsSpace]
  tauto

theorem slugKeep_iff (c : Char) :
    slugKeep c = true ↔
      ((97 ≤ c.toNat ∧ c.toNat ≤ 122) ∨ (48 ≤ c.toNat ∧ c.toNat ≤ 57) ∨
       c.toNat = 32 ∨ c.toNat = 9 ∨ c.toNat = 10 ∨ c.toNat = 13 ∨
       c.toNat = 11 ∨ c.toNat = 12 ∨ c.toNat = 45) := by
  simp [slugKeep, pyIsSpace]
  tauto

theorem isSlugChar_iff (c : Char) :
    isSlugChar c = true ↔
      ((97 ≤ c.toNat ∧ c.toNat ≤ 122) ∨ (48 ≤ c.toNat ∧ c.toNat ≤ 57) ∨
       c.toNat = 45) := by
  simp [isSlugChar]
  tauto

theorem pyIsWord_iff (c : Char) :
    pyIsWord c = true ↔
      ((97 ≤ c.toNat ∧ c.toNat ≤ 122) ∨ (65 ≤ c.toNat ∧ c.toNat ≤ 90) ∨
       (48 ≤ c.toNat ∧ c.toNat ≤ 57) ∨ c.toNat = 95) := by
  simp [pyIsWord]
  tauto

theorem toNat_pyLower_of_upper (c : Char) (h1 : 65 ≤ c.toNat) (h2 : c.toNat ≤ 90) :
    (pyLower c).toNat = c.toNat + 32 := by
  have hv : (c.toNat + 32).isValidChar := Or.inl (by omega)
  have hc : (decide (65 ≤ c.toNat) && decide (c.toNat ≤ 90)) = true := by simp [h1, h2]
  simp only [pyLower, hc, if_true]
  rw [Char.ofNat, dif_pos hv]
  simp [Char.ofNatAux, Char.toNat, UInt32.toNat, UInt32.ofNatCore]

theorem pyLower_eq_self_of_not_upper (c : Char) (h : 90 < c.toNat ∨ c.toNat < 65) :
    pyLower c = c := by
  have hc : (decide (65 ≤ c.toNat) && decide (c.toNat ≤ 90)) = false := by
    rcases h with h | h <;> simp <;> omega
  simp [pyLower, hc]

theorem isSpaceHyphen_pyLower (c : Char) :
    isSpaceHyphen (pyLower c) = isSpaceHyphen c := by
  rcases Nat.lt_or_ge c.toNat 65 with h | h
  · rw [pyLower_eq_self_of_not_upper c (Or.inr h)]
  · rcases Nat.lt_or_ge 90 c.toNat with h2 | h2
    · rw [pyLower_eq_self_of_not_upper c (Or.inl h2)]
    · have ht := toNat_pyLower_of_upper c h h2
      rw [Bool.eq_iff_iff, isSpaceHyphen_iff, isSpaceHyphen_iff, ht]
      omega

theorem pyLower_fix_of_slugChar (c : Char) (h : isSlugChar c = true) :
    pyLower c = c := by
  rw [isSlugChar_iff] at h
  apply pyLower_eq_self_of_not_upper
  omega

/-! ## Collapse lemmas -/

theorem mem_collapseAux :
    ∀ (fl : Bool) (l : List Char) (c : Char), c ∈ collapseAux fl l →
      c = '-' ∨ (c ∈ l ∧ isSpaceHyphen c = false) := by
  intro fl l
  induction l generalizing fl with
  | nil => intro c h; simp [collapseAux] at h
  | cons a t ih =>
    intro c h
    by_cases ha : isSpaceHyphen a = true
    · simp only [collapseAux, ha, if_true] at h
      by_cases hfl : fl = true
      · subst hfl; simp only [if_true] at h
        rcases ih true c h with h1 | h1
        · exact Or.inl h1
        · exact Or.inr ⟨List.mem_cons_of_mem a h1.1, h1.2⟩
      · rw [Bool.not_eq_true] at hfl; subst hfl
        simp only [Bool.false_eq_true, if_false, List.mem_cons] at h
        rcases h with h | h
        · exact Or.inl h
        · rcases ih true c h with h1 | h1
          · exact Or.inl h1
          · exact Or.inr ⟨List.mem_cons_of_mem a h1.1, h1.2⟩
    · rw [Bool.not_eq_true] at ha
      simp only [collapseAux, ha, Bool.false_eq_true, if_false, List.mem_cons] at h
      rcases h with h | h
      · subst h; exact Or.inr ⟨List.mem_cons_self c t, ha⟩
      · rcases ih false c h with h1 | h1
        · exact Or.inl h1
        · exact Or.inr ⟨List.mem_cons_of_mem a h1.1, h1.2⟩

theorem noAdjSoh_cons (c : Char) (cs : List Char) (h : noAdjSoh (c :: cs) = true) :
    noAdjSoh cs = true ∧ (isSpaceHyphen c = true → headNotSoh cs = true) := by
  cases cs with
  | nil => exact ⟨rfl, fun _ => rfl⟩
  | cons b t =>
    simp only [noAdjSoh, Bool.and_eq_true, Bool.not_eq_true'] at h
    refine ⟨h.2, fun hc => ?_⟩
    simp only [headNotSoh, Bool.not_eq_true']
    rcases Bool.and_eq_false_iff.mp h.1 with h1 | h1
    · rw [hc] at h1; exact absurd h1 (by simp)
    · exact h1

theorem collapseAux_eq_map (l : List Char) (h : noAdjSoh l = true) :
    collapseAux false l = l.map sohToHyphen ∧
      (headNotSoh l = true → collapseAux true l = l.map sohToHyphen) := by
  induction l with
  | nil => exact ⟨rfl, fun _ => rfl⟩
  | cons a t ih =>
    obtain ⟨ht, hadj⟩ := noAdjSoh_cons a t h
    obtain ⟨ihf, iht⟩ := ih ht
    by_cases ha : isSpaceHyphen a = true
    · constructor
      · simp only [collapseAux, ha, if_true, Bool.false_eq_true, if_false,
          List.map_cons, sohToHyphen, iht (hadj ha)]
      · intro hh
        simp only [headNotSoh, ha, Bool.not_true] at hh
        exact absurd hh (by simp)
    · rw [Bool.not_eq_true] at ha
      constructor
      · simp only [collapseAux, ha, Bool.false_eq_true, if_false, List.map_cons,
          sohToHyphen, ihf]
      · intro _
        simp only [collapseAux, ha, Bool.false_eq_true, if_false, List.map_cons,
          sohToHyphen, ihf]

theorem collapseAux_involutive (l : List Char) :
    collapseAux false (collapseAux false l) = collapseAux false l ∧
      collapseAux true (collapseAux true l) = collapseAux true l := by
  induction l with
  | nil => exact ⟨rfl, rfl⟩
  | cons a t ih =>
    by_cases ha : isSpaceHyphen a = true
    · constructor
      · simp only [collapseAux, ha, if_true, Bool.false_eq_true, if_false]
        have hd : isSpaceHyphen '-' = true := by decide
        simp only [collapseAux, hd, if_true, Bool.false_eq_true, if_false, ih.2]
      · simp only [collapseAux, ha, if_true, ih.2]
    · rw [Bool.not_eq_true] at ha
      constructor
      · simp only [collapseAux, ha, Bool.false_eq_true, if_false, ih.1]
      · simp only [collapseAux, ha, Bool.false_eq_true, if_false, ih.1]

/-! ## Strip, map and filter lemmas -/

theorem char_eq_of_toNat_eq (c d : Char) (h : c.toNat = d.toNat) : c = d :=
  Char.ext (UInt32.ext h)

theorem dropWhile_eq_self_of_head {p : Char → Bool} (l : List Char)
    (h : ∀ c, l.head? = some c → p c = false) : l.dropWhile p = l := by
  cases l with
  | nil => rfl
  | cons a t => rw [List.dropWhile_cons, h a rfl]; simp

theorem pyStrip_eq_self_of_heads (l : List Char)
    (h1 : ∀ c, l.head? = some c → pyIsSpace c = false)
    (h2 : ∀ c, l.getLast? = some c → pyIsSpace c = false) : pyStrip l = l := by
  rw [pyStrip, dropWhile_eq_self_of_head l h1,
    dropWhile_eq_self_of_head l.reverse
      (fun c hc => h2 c (by rwa [List.head?_reverse] at hc)),
    List.reverse_reverse]

theorem pyStrip_eq_self_of_all (l : List Char) (h : ∀ c ∈ l, pyIsSpace c = false) :
    pyStrip l = l :=
  pyStrip_eq_self_of_heads l
    (fun c hc => h c (by cases l with | nil => simp at hc | cons a t =>
      simp only [List.head?_cons, Option.some.injEq] at hc; exact hc ▸ List.mem_cons_self a t))
    (fun c hc => h c (List.mem_of_mem_getLast? hc))

theorem map_eq_self_of_fix (f : Char → Char) (l : List Char) (h : ∀ c ∈ l, f c = c) :
    l.map f = l := by
  induction l with
  | nil => rfl
  | cons a t ih =>
    rw [List.map_cons, h a (List.mem_cons_self a t),
      ih fun c hc => h c (List.mem_cons_of_mem a hc)]

theorem pyIsSpace_false_of_not_soh (c : Char) (h : isSpaceHyphen c = false) :
    pyIsSpace c = false := by
  have h2 : ¬ isSpaceHyphen c = true := by rw [h]; simp
  rw [isSpaceHyphen_iff] at h2
  have h3 : ¬ (c.toNat = 32 ∨ c.toNat = 9 ∨ c.toNat = 10 ∨ c.toNat = 13 ∨
      c.toNat = 11 ∨ c.toNat = 12) := by omega
  rw [Bool.eq_false_iff, Ne, pyIsSpace_iff]
  exact h3

theorem slugKeep_of_slugChar (c : Char) (h : isSlugChar c = true) : slugKeep c = true := by
  rw [isSlugChar_iff] at h
  rw [slugKeep_iff]
  omega

/-! ## Characters of produced slugs -/

theorem mem_slugifyL (l : List Char) (c : Char) (h : c ∈ slugifyL l) :
    isSlugChar c = true := by
  rcases mem_collapseAux false _ c h with h1 | h1
  · subst h1; decide
  · have hk := (List.mem_filter.mp h1.1).2
    rw [slugKeep_iff] at hk
    have hs : ¬ isSpaceHyphen c = true := by rw [h1.2]; simp
    rw [isSpaceHyphen_iff] at hs
    rw [isSlugChar_iff]
    omega

theorem slugifyL_idem (l : List Char) : slugifyL (slugifyL l) = slugifyL l := by
  have hm : ∀ c ∈ slugifyL l, isSlugChar c = true := fun c hc => mem_slugifyL l c hc
  have hnows : ∀ c ∈ slugifyL l, pyIsSpace c = false := by
    intro c hc
    have h2 := hm c hc
    rw [isSlugChar_iff] at h2
    rw [Bool.eq_false_iff, Ne, pyIsSpace_iff]
    omega
  conv_lhs => rw [slugifyL]
  rw [pyStrip_eq_self_of_all _ hnows,
    map_eq_self_of_fix pyLower _ (fun c hc => pyLower_fix_of_slugChar c (hm c hc)),
    List.filter_eq_self.mpr (fun c hc => slugKeep_of_slugChar c (hm c hc))]
  exact (collapseAux_involutive _).1

/-! ## Lemmas for the two anchor computations -/

theorem noAdjSoh_map_pyLower (l : List Char) :
    noAdjSoh (l.map pyLower) = noAdjSoh l := by
  induction l with
  | nil => rfl
  | cons a t ih =>
    cases t with
    | nil => rfl
    | cons b t2 =>
      simp only [List.map_cons, noAdjSoh, isSpaceHyphen_pyLower]
      rw [show pyLower b :: List.map pyLower t2 = List.map pyLower (b :: t2) from rfl, ih]

theorem toNat_pyLower_range_of_plain (c : Char) (h : plainChar c = true) :
    (97 ≤ (pyLower c).toNat ∧ (pyLower c).toNat ≤ 122) ∨
      (48 ≤ (pyLower c).toNat ∧ (pyLower c).toNat ≤ 57) ∨
      (pyLower c).toNat = 32 ∨ (pyLower c).toNat = 45 := by
  simp only [plainChar, Bool.or_eq_true, Bool.and_eq_true, decide_eq_true_eq,
    beq_iff_eq] at h
  rcases Nat.lt_or_ge c.toNat 65 with hr | hr
  · rw [pyLower_eq_self_of_not_upper c (Or.inr hr)]; omega
  · rcases Nat.lt_or_ge 90 c.toNat with hr2 | hr2
    · rw [pyLower_eq_self_of_not_upper c (Or.inl hr2)]; omega
    · rw [toNat_pyLower_of_upper c hr hr2]; omega

theorem slugKeep_pyLower_of_plain (c : Char) (h : plainChar c = true) :
    slugKeep (pyLower c) = true := by
  have := toNat_pyLower_range_of_plain c h
  rw [slugKeep_iff]
  omega

theorem rwKeep_spaceToHyphen_of_plain (c : Char) (h : plainChar c = true) :
    (pyIsWord (spaceToHyphen (pyLower c)) || (spaceToHyphen (pyLower c)).toNat == 45)
      = true := by
  have hr := toNat_pyLower_range_of_plain c h
  by_cases h32 : (pyLower c).toNat = 32
  · have : spaceToHyphen (pyLower c) = '-' := by simp [spaceToHyphen, h32]
    rw [this]; decide
  · have hw : ((pyLower c).toNat == 32) = false := by simp [h32]
    have : spaceToHyphen (pyLower c) = pyLower c := by simp [spaceToHyphen, hw]
    rw [this, Bool.or_eq_true, pyIsWord_iff]
    simp only [beq_iff_eq]
    omega

theorem sohToHyphen_eq_spaceToHyphen_of_plain (c : Char) (h : plainChar c = true) :
    sohToHyphen (pyLower c) = spaceToHyphen (pyLower c) := by
  have hr := toNat_pyLower_range_of_plain c h
  by_cases h32 : (pyLower c).toNat = 32
  · have h1 : sohToHyphen (pyLower c) = '-' := by
      have : isSpaceHyphen (pyLower c) = true := by rw [isSpaceHyphen_iff]; omega
      simp [sohToHyphen, this]
    have h2 : spaceToHyphen (pyLower c) = '-' := by simp [spaceToHyphen, h32]
    rw [h1, h2]
  · by_cases h45 : (pyLower c).toNat = 45
    · have h1 : sohToHyphen (pyLower c) = '-' := by
        have : isSpaceHyphen (pyLower c) = true := by rw [isSpaceHyphen_iff]; omega
        simp [sohToHyphen, this]
      have h2 : spaceToHyphen (pyLower c) = pyLower c := by simp [spaceToHyphen, h32]
      rw [h1, h2]
      exact (char_eq_of_toNat_eq _ _ (by rw [h45]; rfl)).symm
    · have h1 : sohToHyphen (pyLower c) = pyLower c := by
        have : isSpaceHyphen (pyLower c) = false := by
          rw [Bool.eq_false_iff, Ne, isSpaceHyphen_iff]; omega
        simp [sohToHyphen, this]
      have h2 : spaceToHyphen (pyLower c) = pyLower c := by simp [spaceToHyphen, h32]
      rw [h1, h2]

/-! ## Claim C1 -/

/-- Claim C1, evaluated on the code at its failing input: a document with two
headings titled "Setup" yields the anchor `#setup` for both TOC entries; no
`-1` suffix is ever produced, because no caller of `slugify` tracks already
assigned slugs. -/
theorem toc_duplicate_titles_same_slug :
    genTocLines ["# Setup\n\nIntro text.\n\n# Setup"] =
      ["# Table of Contents", "", "- [Setup](#setup)", "- [Setup](#setup)",
        "\n<div class=\"page-break\"></div>"] := by decide

/-! ## Claim C10 -/

/-- Claim C10: slugify is idempotent — an anchor already in canonical form is
unchanged by a further pass of slug generation. -/
theorem slugify_idempotent (s : String) : slugify (slugify s) = slugify s := by
  show String.mk (slugifyL (slugifyL s.data)) = String.mk (slugifyL s.data)
  rw [slugifyL_idem]

/-! ## Claim C4 -/

/-- Claim C4 counterexample: the heading `# !!!` is extracted and assigned
the empty slug, and two headings titled "Setup" in one document are assigned
the same slug, refuting both the non-emptiness and the uniqueness halves of
the claimed invariant. -/
theorem heading_slug_empty_and_duplicate :
    (parseHeadings "# !!!").map (fun p => slugify p.2) = [""] ∧
      (parseHeadings "# Setup\n# Setup").map (fun p => slugify p.2) =
        ["setup", "setup"] := by decide

/-- Claim C4 as amended: every slug assigned to an extracted heading is made
of lowercase ASCII letters, digits, and hyphens only; it may be empty, and
equal titles receive equal (not unique) slugs. -/
theorem heading_slug_charset (doc : String) (p : Nat × String)
    (hp : p ∈ parseHeadings doc) (c : Char) (hc : c ∈ (slugify p.2).data) :
    isSlugChar c = true :=
  mem_slugifyL _ c hc

/-- Witness for the amended C4 at a concrete document, heading and slug
character. -/
theorem heading_slug_charset_witness : isSlugChar 'h' = true :=
  heading_slug_charset "# Hi" (1, "Hi") (by decide) 'h' (by decide)

/-! ## Claim C6 -/

/-- Claim C6 counterexample: on the title `"a\tb"` the algorithm as claimed
(step 3 keeps only the space character) gives `"ab"`, while `slugify` keeps
the tab (the code's regex class is `\s`) and gives `"a-b"`. -/
theorem slugify_tab_not_space_removed :
    slugSpecStated "a\tb" = "ab" ∧ slugify "a\tb" = "a-b" ∧
      slugify "a\tb" ≠ slugSpecStated "a\tb" := by decide

/-- Claim C6 as amended (step 3 removes every character that is not a
lowercase letter, digit, whitespace, or hyphen): `slugify` is exactly the
four-step algorithm, and the claimed examples hold. -/
theorem slugify_algorithm_amended :
    (∀ s : String, slugify s = slugSpecAmended s) ∧
      slugify "Hello, World!" = "hello-world" ∧
      slugify "  Multiple   Spaces  " = "multiple-spaces" :=
  ⟨fun _ => rfl, by decide, by decide⟩

/-! ## Claim C2 -/

/-- Claim C2 counterexample: for the heading title `"A_B"` the anchor
embedded by rewrite_links is `a_b` while gen_toc's slugify yields `ab`; the
two heading-to-anchor computations are different functions. -/
theorem rwAnchor_slugify_disagree :
    rwAnchor "A_B" = "a_b" ∧ slugify "A_B" = "ab" ∧
      replaceLink [("t.md", "# A_B\nbody")] "doc.md" "x" "t.md" = "[x](#a_b)" ∧
      rwAnchor "A_B" ≠ slugify "A_B" := by decide

/-- Claim C2 as amended: the two computations agree on plain titles — ASCII
letters, digits, spaces and hyphens, no two adjacent space-or-hyphen
characters, neither end a space or hyphen — but not on titles with
underscores, tabs, or runs of spaces. -/
theorem rwAnchor_eq_slugify_on_plain_titles (t : String)
    (h : plainTitle t.data = true) : rwAnchor t = slugify t := by
  have hsplit : (t.data.all plainChar && noAdjSoh t.data && headNotSoh t.data &&
      headNotSoh t.data.reverse) = true := h
  simp only [Bool.and_eq_true] at hsplit
  obtain ⟨⟨⟨hall, hadj⟩, hhead⟩, hlast⟩ := hsplit
  have hmem : ∀ c ∈ t.data, plainChar c = true := List.all_eq_true.mp hall
  have hstrip : pyStrip t.data = t.data := by
    apply pyStrip_eq_self_of_heads
    · intro c hc
      cases hd : t.data with
      | nil => rw [hd] at hc; simp at hc
      | cons a t2 =>
        rw [hd] at hc
        simp only [List.head?_cons, Option.some.injEq] at hc
        subst hc
        rw [hd] at hhead
        simp only [headNotSoh, Bool.not_eq_true'] at hhead
        exact pyIsSpace_false_of_not_soh _ hhead
    · intro c hc
      rw [← List.head?_reverse] at hc
      cases hr : t.data.reverse with
      | nil => rw [hr] at hc; simp at hc
      | cons a t2 =>
        rw [hr] at hc
        simp only [List.head?_cons, Option.some.injEq] at hc
        subst hc
        rw [hr] at hlast
        simp only [headNotSoh, Bool.not_eq_true'] at hlast
        exact pyIsSpace_false_of_not_soh _ hlast
  have e1 : slugify t = String.mk ((t.data.map pyLower).map sohToHyphen) := by
    show String.mk (slugifyL t.data) = _
    have hf : (t.data.map pyLower).filter slugKeep = t.data.map pyLower :=
      List.filter_eq_self.mpr fun c hc => by
        obtain ⟨c0, hc0, rfl⟩ := List.mem_map.mp hc
        exact slugKeep_pyLower_of_plain c0 (hmem c0 hc0)
    have hadj2 : noAdjSoh (t.data.map pyLower) = true := by
      rw [noAdjSoh_map_pyLower]; exact hadj
    rw [slugifyL, hstrip, hf, (collapseAux_eq_map _ hadj2).1]
  have e2 : rwAnchor t = String.mk ((t.data.map pyLower).map spaceToHyphen) := by
    show String.mk (rwAnchorL t.data) = _
    have hf : (((t.data.map pyLower).map spaceToHyphen).filter
        fun c => pyIsWord c || c.toNat == 45) = (t.data.map pyLower).map spaceToHyphen :=
      List.filter_eq_self.mpr fun c hc => by
        obtain ⟨c1, hc1, rfl⟩ := List.mem_map.mp hc
        obtain ⟨c0, hc0, rfl⟩ := List.mem_map.mp hc1
        exact rwKeep_spaceToHyphen_of_plain c0 (hmem c0 hc0)
    rw [rwAnchorL, hf]
  rw [e1, e2]
  congr 1
  apply List.map_congr_left
  intro x hx
  obtain ⟨c0, hc0, rfl⟩ := List.mem_map.mp hx
  exact (sohToHyphen_eq_spaceToHyphen_of_plain c0 (hmem c0 hc0)).symm

/-- Witness for the amended C2 at a concrete plain title. -/
theorem rwAnchor_eq_slugify_witness :
    rwAnchor "Security Architecture" = slugify "Security Architecture" :=
  rwAnchor_eq_slugify_on_plain_titles "Security Architecture" (by decide)

/-! ## Claim C9 -/

/-- Claim C9: replace_link returns every link occurrence whose target does
not literally end in `.md` unchanged — whatever the filesystem holds, so in
particular even when the target's path component names an existing document
(as with a fragment-carrying `doc.md#section`). -/
theorem non_md_links_unchanged (fs : List (String × String))
    (filename text url : String) (h : strEndsWith url ".md" = false) :
    replaceLink fs filename text url = origLink text url := by
  simp only [replaceLink, h, Bool.false_eq_true, if_false, ite_self]

/-- Witness for C9: the target `doc.md#section` does not end in `.md`, so the
link is returned unchanged although `doc.md` itself exists. -/
theorem non_md_links_unchanged_witness :
    replaceLink [("doc.md", "# Title")] "a.md" "x" "doc.md#section" =
      origLink "x" "doc.md#section" :=
  non_md_links_unchanged [("doc.md", "# Title")] "a.md" "x" "doc.md#section" (by decide)

/-! ## Claim C3 -/

/-- Claim C3 counterexample: a relative `.md` link whose target does not
exist is not left byte-for-byte unchanged — it is rewritten to the fallback
anchor. -/
theorem missing_target_rewritten :
    rewriteLinks [] "doc.md" "[x](missing.md)" = "[x](#missing)" ∧
      rewriteLinks [] "doc.md" "[x](missing.md)" ≠ "[x](missing.md)" := by decide

/-- Claim C3 as amended: a relative-file `.md` link whose path, resolved
against the document's directory, does not name an existing file is
rewritten to the heuristic anchor link derived from the target's filename
(extension and leading digits-plus-separator stripped); only external,
anchor-only, mailto and non-`.md` targets are left unchanged. -/
theorem missing_md_target_fallback_rewrite (fs : List (String × String))
    (filename text url : String) (h1 : linkNonRewritable url = false)
    (h2 : strEndsWith url ".md" = true)
    (h3 : lookupFs fs (pyJoin (pyDirname filename) url) = none) :
    replaceLink fs filename text url = anchorLink text (fallbackAnchor url) := by
  simp only [replaceLink, h1, h2, h3, Bool.false_eq_true, if_false, if_true]

/-- Witness for the amended C3: the missing target `missing.md` is rewritten
to `#missing`. -/
theorem missing_md_target_fallback_witness :
    replaceLink [] "doc.md" "x" "missing.md" =
      anchorLink "x" (fallbackAnchor "missing.md") :=
  missing_md_target_fallback_rewrite [] "doc.md" "x" "missing.md"
    (by decide) (by decide) (by decide)

/-! ## Claim C7 -/

theorem toc_inner_foldl (hs : List (Nat × String)) :
    ∀ acc : List String,
      hs.foldl (fun acc2 p => if p.1 > 3 then acc2 else acc2 ++ [tocLine p.1 p.2]) acc =
        acc ++ hs.filterMap fun p =>
          if p.1 ≤ 3 then some (tocLine p.1 p.2) else none := by
  induction hs with
  | nil => intro acc; simp
  | cons p t ih =>
    intro acc
    rw [List.foldl_cons, List.filterMap_cons]
    by_cases h : p.1 ≤ 3
    · have h2 : ¬ p.1 > 3 := by omega
      simp [h, h2, ih]
    · have h2 : p.1 > 3 := by omega
      simp [h, h2, ih]

theorem toc_outer_foldl (docs : List String) :
    ∀ acc : List String,
      docs.foldl
        (fun acc content =>
          (parseHeadings content).foldl
            (fun acc2 p => if p.1 > 3 then acc2 else acc2 ++ [tocLine p.1 p.2]) acc)
        acc =
      acc ++ docs.flatMap fun content =>
        (parseHeadings content).filterMap fun p =>
          if p.1 ≤ 3 then some (tocLine p.1 p.2) else none := by
  induction docs with
  | nil => intro acc; simp
  | cons d t ih =>
    intro acc
    rw [List.foldl_cons, List.flatMap_cons, toc_inner_foldl, ih, List.append_assoc]

/-- Claim C7: the generated TOC is exactly a fixed title line and blank line,
then — in document order, and heading order within each document — one line
per heading of level at most 3, indented two spaces per level above 1 and
targeting `#slug`, with headings above level 3 contributing nothing, and the
trailing page-break marker. -/
theorem genTocLines_characterization (docs : List String) :
    genTocLines docs =
      ["# Table of Contents", ""] ++
        (docs.flatMap fun content =>
          (parseHeadings content).filterMap fun p =>
            if p.1 ≤ 3 then some (tocLine p.1 p.2) else none) ++
        ["\n<div class=\"page-break\"></div>"] := by
  rw [genTocLines, toc_outer_foldl, List.append_assoc]

/-! ## Claim C5 -/

theorem clInner_emit (ex : String → Bool) (sp dp fp : String)
    (acc : List (String × String)) (link : String) :
    clInner ex sp dp fp acc link =
      acc ++ (if linkBroken ex sp dp link then [(fp, link)] else []) := by
  simp only [clInner, linkBroken]
  by_cases h1 : linkSkip link = true
  · simp [h1]
  · simp only [Bool.not_eq_true] at h1
    simp only [h1, Bool.false_eq_true, if_false]
    by_cases h2 : (linkPathOf link == "") = true
    · simp [h2]
    · simp only [Bool.not_eq_true] at h2
      simp only [h2, Bool.false_eq_true, if_false]
      by_cases h3 : ex (normpath (resolveTarget sp dp (linkPathOf link))) = true
      · simp [h3]
      · simp only [Bool.not_eq_true] at h3
        simp [h3]

theorem cl_inner_foldl (ex : String → Bool) (sp dp fp : String) (links : List String) :
    ∀ acc, links.foldl (clInner ex sp dp fp) acc =
      acc ++ (links.filter (linkBroken ex sp dp)).map fun l => (fp, l) := by
  induction links with
  | nil => intro acc; simp
  | cons a t ih =>
    intro acc
    rw [List.foldl_cons, clInner_emit, List.filter_cons]
    by_cases h : linkBroken ex sp dp a = true
    · simp [h, ih]
    · simp only [Bool.not_eq_true] at h
      simp [h, ih]

theorem cl_outer_foldl (ex : String → Bool) (sp : String) (files : List MdFile) :
    ∀ acc, files.foldl
        (fun acc f =>
          if !strEndsWith f.filename ".md" then acc
          else if ignoredFiles.contains f.filename then acc
          else
            (clFindAll f.content).foldl
              (clInner ex sp f.dirpath (pyJoin f.dirpath f.filename)) acc)
        acc =
      acc ++ files.flatMap fun f =>
        if strEndsWith f.filename ".md" && !ignoredFiles.contains f.filename then
          ((clFindAll f.content).filter (linkBroken ex sp f.dirpath)).map
            fun link => (pyJoin f.dirpath f.filename, link)
        else [] := by
  induction files with
  | nil => intro acc; simp
  | cons fhd t ih =>
    intro acc
    rw [List.foldl_cons, List.flatMap_cons]
    have hstep :
        (if !strEndsWith fhd.filename ".md" then acc
         else if ignoredFiles.contains fhd.filename then acc
         else
           (clFindAll fhd.content).foldl
             (clInner ex sp fhd.dirpath (pyJoin fhd.dirpath fhd.filename)) acc) =
        acc ++
          (if strEndsWith fhd.filename ".md" && !ignoredFiles.contains fhd.filename then
            ((clFindAll fhd.content).filter (linkBroken ex sp fhd.dirpath)).map
              fun link => (pyJoin fhd.dirpath fhd.filename, link)
          else []) := by
      by_cases h1 : strEndsWith fhd.filename ".md" = true
      · by_cases h2 : ignoredFiles.contains fhd.filename = true
        · simp only [h1, h2, Bool.not_true, Bool.false_eq_true, if_false, if_true,
            Bool.and_false, List.append_nil]
        · simp only [Bool.not_eq_true] at h2
          simp only [h1, h2, Bool.not_true, Bool.not_false, Bool.false_eq_true,
            if_false, Bool.and_true, if_true, cl_inner_foldl]
      · simp only [Bool.not_eq_true] at h1
        simp only [h1, Bool.not_false, if_true, Bool.false_and, Bool.false_eq_true,
          if_false, List.append_nil]
    rw [hstep, ih, List.append_assoc]

/-- Claim C5: the report of check_links is exactly, in scan order, one
`(joined source path, original link target)` pair for every extracted link of
every scanned markdown document whose target is neither external, anchor-only
nor mailto, has a nonempty path component, and whose path — resolved against
the document's directory, or against the start path with leading separators
stripped when it begins with one — normalizes to a non-existent path; all
failures are collected in one pass, and the report is empty when every such
target exists. -/
theorem checkLinks_report_characterization (ex : String → Bool) (startPath : String)
    (files : List MdFile) :
    checkLinks ex startPath files =
      files.flatMap fun f =>
        if strEndsWith f.filename ".md" && !ignoredFiles.contains f.filename then
          ((clFindAll f.content).filter (linkBroken ex startPath f.dirpath)).map
            fun link => (pyJoin f.dirpath f.filename, link)
        else [] := by
  rw [checkLinks, cl_outer_foldl]
  simp

/-! ## Claim C8 -/

theorem findLinksF_infix_subLinksF (f : String → String → String) :
    ∀ (fuel : Nat) (l : List Char) (t u : String),
      (t, u) ∈ findLinksF fuel l → (f t u).data <:+: subLinksF f fuel l := by
  intro fuel
  induction fuel with
  | zero => intro l t u h; simp [findLinksF] at h
  | succ n ih =>
    intro l t u h
    cases l with
    | nil => simp [findLinksF] at h
    | cons c cs =>
      by_cases hc : (c == '[') = true
      · cases htm : tryMatchLink cs with
        | none =>
          simp only [findLinksF, hc, if_true, htm] at h
          simp only [subLinksF, hc, if_true, htm]
          exact List.infix_cons (ih cs t u h)
        | some r =>
          obtain ⟨a, b, rest⟩ := r
          simp only [findLinksF, hc, if_true, htm, List.mem_cons] at h
          simp only [subLinksF, hc, if_true, htm]
          rcases h with h | h
          · rw [Prod.mk.injEq] at h
            obtain ⟨rfl, rfl⟩ := h
            exact ⟨[], subLinksF f n rest, by simp⟩
          · obtain ⟨s1, s2, hs⟩ := ih rest t u h
            exact ⟨(f (String.mk a) (String.mk b)).data ++ s1, s2, by
              rw [← hs]; simp⟩
      · simp only [Bool.not_eq_true] at hc
        simp only [findLinksF, hc, Bool.false_eq_true, if_false] at h
        simp only [subLinksF, hc, Bool.false_eq_true, if_false]
        exact List.infix_cons (ih cs t u h)

/-- Claim C8: every link occurrence whose target starts with `http`, `#`, or
`mailto:` appears byte-identically in the output of rewrite_links: its
replacement is the original occurrence, and that occurrence is an infix of
the produced text. -/
theorem nonrewritable_links_preserved (fs : List (String × String))
    (filename content : String) (t u : String)
    (hmem : (t, u) ∈ findLinks content) (hnr : linkNonRewritable u = true) :
    (origLink t u).data <:+: (rewriteLinks fs filename content).data := by
  have h := findLinksF_infix_subLinksF (replaceLink fs filename)
    content.data.length content.data t u hmem
  have he : replaceLink fs filename t u = origLink t u := by
    simp only [replaceLink, hnr, if_true]
  rw [he] at h
  exact h

/-- Witness for C8: the anchor-only occurrence `[a](#x)` survives rewriting
byte-for-byte. -/
theorem nonrewritable_links_preserved_witness :
    (origLink "a" "#x").data <:+: (rewriteLinks [] "d.md" "see [a](#x)!").data :=
  nonrewritable_links_preserved [] "d.md" "see [a](#x)!" "a" "#x"
    (by decide) (by decide)

end DocRefs
